import Mathlib

/-!
Verification development for the museum RAG chat pipeline.

Shallow embedding of:
- `src/supabase/functions/rag_chat/index.ts` (request handler, structured-fact
  resolver, similarity gating, refusal policy),
- the SQL function `public.match_chunks` from the migrations (tenant-scoped
  vector search),
- the `CitationList` presentation-layer dedupe from `src/frontend/src/App.tsx`.

JavaScript strings are modelled as Lean `String`, JS finite numbers as exact
rationals `ℚ` (a numeric field that may be `NaN`/`±Infinity` or a string is
modelled by the `SimField` type), nullable values as `Option`, and each
external network call as an oracle input to the handler together with a flag
in the result recording whether the call was made.
-/

set_option maxRecDepth 8192

namespace RagChat

/-! ### Character/string utilities mirroring the JS regex behaviour -/

/-- ASCII word character, as in the JS regex class `\w` used by `\b`. -/
def isWordChar (c : Char) : Bool :=
  ('a' ≤ c && c ≤ 'z') || ('A' ≤ c && c ≤ 'Z') || ('0' ≤ c && c ≤ '9') || c = '_'

/-- Whether the character at index `i` exists and is a word character. -/
def wordCharAt (q : List Char) (i : Nat) : Bool :=
  match q[i]? with
  | some c => isWordChar c
  | none => false

/-- The JS regex word boundary `\b` at gap position `i` of `q`: exactly one of
the characters on either side of the gap is a word character (a missing
character counts as non-word). -/
def boundaryAt (q : List Char) (i : Nat) : Bool :=
  (decide (i ≠ 0) && wordCharAt q (i - 1)) != wordCharAt q i

/-- `p` occurs in `q` starting at index `i` (exact character match). -/
def occursAt (q p : List Char) (i : Nat) : Bool :=
  decide ((q.drop i).take p.length = p)

/-- ASCII lower-casing of one character (model of JS `toLowerCase`; code
points 65–90 are `A`–`Z`). -/
def lowerChar (c : Char) : Char :=
  if 65 ≤ c.toNat && c.toNat ≤ 90 then Char.ofNat (c.toNat + 32) else c

/-- ASCII lower-casing of a string. -/
def lowerStr (s : String) : String := ⟨s.data.map lowerChar⟩

/-- Every occurrence of `p` in `q` is inside a longer word: it is preceded
or followed by a word character. -/
def occursOnlyEmbedded (q p : List Char) : Bool :=
  (List.range (q.length + 1)).all fun i =>
    !occursAt q p i ||
    ((decide (i ≠ 0) && wordCharAt q (i - 1)) || wordCharAt q (i + p.length))

/-- Model of JS `String.prototype.includes`: raw substring containment. -/
def includes (q p : String) : Bool :=
  (List.range (q.data.length + 1)).any fun i => occursAt q.data p.data i

/-- Model of `hasWholePhrase` from `rag_chat/index.ts`: tests the
case-insensitive regex `(^|\b)p(\b|$)` against `q` (the phrase contains no
regex metacharacters after `escapeRegex`, so it is matched literally). -/
def hasWholePhrase (q phrase : String) : Bool :=
  let qc := (lowerStr q).data
  let pc := (lowerStr phrase).data
  (List.range (qc.length + 1)).any fun i =>
    occursAt qc pc i &&
    (decide (i = 0) || boundaryAt qc i) &&
    (boundaryAt qc (i + pc.length) || decide (i + pc.length = qc.length))

/-- Model of `hasAnyWholePhrase` from `rag_chat/index.ts`. -/
def hasAnyWholePhrase (q : String) (phrases : List String) : Bool :=
  phrases.any (hasWholePhrase q)

/-- A whole marker occurrence `\b m \b` (both ends a word boundary),
case-insensitive; used by `isTimeSensitive`. -/
def wholeWordOccurs (q m : String) : Bool :=
  let qc := (lowerStr q).data
  let mc := (lowerStr m).data
  (List.range (qc.length + 1)).any fun i =>
    occursAt qc mc i && boundaryAt qc i && boundaryAt qc (i + mc.length)

/-- Recency markers of the `isTimeSensitive` regex in `rag_chat/index.ts`. -/
def recencyMarkers : List String :=
  ["this week", "today", "right now", "currently", "current", "now",
   "tonight", "tomorrow", "yesterday"]

/-- Model of `isTimeSensitive` from `rag_chat/index.ts`: the case-insensitive
regex `\b(this week|today|right now|currently|current|now|tonight|tomorrow|yesterday)\b`
tests true iff some marker occurs delimited by word boundaries. -/
def isTimeSensitive (question : String) : Bool :=
  recencyMarkers.any (wholeWordOccurs question)

/-- A character the regex `.` matches (no `s` flag: line terminators are
excluded). -/
def dotMatches (c : Char) : Bool :=
  !(c = '\n' || c = '\r' || c = ' ' || c = ' ')

/-- Model of a regex of shape `p1.*p2` tested against `q` (both operand
strings are already lower case wherever this is used, matching the `i` flag
on an already lower-cased subject). -/
def seqMatch (q p1 p2 : String) : Bool :=
  let qc := q.data
  (List.range (qc.length + 1)).any fun i =>
    occursAt qc p1.data i &&
    (List.range (qc.length + 1)).any fun j =>
      decide (i + p1.data.length ≤ j) && occursAt qc p2.data j &&
      ((qc.drop (i + p1.data.length)).take (j - (i + p1.data.length))).all dotMatches

/-! ### UUID validation (`isValidUuid` / `UUID_REGEX`) -/

/-- Character classes of the UUID regex
`^[0-9a-f]{8}-[0-9a-f]{4}-[1-5][0-9a-f]{3}-[89ab][0-9a-f]{3}-[0-9a-f]{12}$`
(with the `i` flag). -/
inductive UuidClass where
  | hex | dash | version | variant
deriving DecidableEq

/-- Hex digit, case-insensitive (`[0-9a-f]` with the `i` flag). -/
def isHexChar (c : Char) : Bool :=
  ('0' ≤ c && c ≤ '9') || ('a' ≤ c && c ≤ 'f') || ('A' ≤ c && c ≤ 'F')

def matchesClass : UuidClass → Char → Bool
  | .hex, c => isHexChar c
  | .dash, c => c = '-'
  | .version, c => '1' ≤ c && c ≤ '5'
  | .variant, c => c = '8' || c = '9' || c = 'a' || c = 'b' || c = 'A' || c = 'B'

/-- The 36-position pattern of `UUID_REGEX`. -/
def uuidPattern : List UuidClass :=
  List.replicate 8 .hex ++ [.dash] ++ List.replicate 4 .hex ++ [.dash] ++
  [.version] ++ List.replicate 3 .hex ++ [.dash] ++
  [.variant] ++ List.replicate 3 .hex ++ [.dash] ++ List.replicate 12 .hex

/-- Model of `isValidUuid` from `rag_chat/index.ts`. -/
def isValidUuid (s : String) : Bool :=
  decide (s.data.length = 36) && (List.zipWith matchesClass uuidPattern s.data).all id

/-! ### Structured-fact resolver (`tryAnswerFromMuseumProfile`) -/

/-- Row of the `museums` table as selected by `tryGetMuseumRow`. -/
structure MuseumRow where
  id : String
  name : Option String
  address : Option String
  city : Option String
  state : Option String
  postal_code : Option String
  country : Option String
  website : Option String
  phone : Option String
  director : Option String
  founded_year : Option Int
  former_name : Option String
  mission : Option String
deriving DecidableEq

/-- A citation entry of the wire response (`{id, source_url, similarity}`). -/
structure SourceOut where
  id : String
  source_url : Option String
  similarity : ℚ
deriving DecidableEq

/-- Result shape of `tryAnswerFromMuseumProfile`. -/
structure ProfileAnswer where
  answer : String
  sources : List SourceOut
deriving DecidableEq

/-- Model of `makeProfileSource` from `rag_chat/index.ts`. -/
def makeProfileSource (museum : MuseumRow) : SourceOut :=
  { id := "museum_profile:" ++ museum.id
    source_url := museum.website
    similarity := 1 }

/-- JS truthiness of a nullable string (`null`/`undefined` and `""` are
falsy). -/
def truthyStr : Option String → Bool
  | none => false
  | some s => decide (s ≠ "")

/-- JS truthiness of a nullable number (`null`/`undefined` and `0` are
falsy). -/
def truthyInt : Option Int → Bool
  | none => false
  | some n => decide (n ≠ 0)

/-- `[address, city, state, postal_code, country].filter(Boolean).join(", ")`. -/
def locationOf (m : MuseumRow) : String :=
  String.intercalate ", "
    (([m.address, m.city, m.state, m.postal_code, m.country].filterMap id).filter
      fun s => decide (s ≠ ""))

/-- The fact categories of `tryAnswerFromMuseumProfile`, in source order. -/
inductive ProfileCategory where
  | director | mission | founded | formerName | address | website | phone | museumName
deriving DecidableEq

/-- Trigger of the director/CEO/leadership branch. -/
def directorTrigger (q : String) : Bool :=
  hasAnyWholePhrase q ["director", "ceo", "leadership"] ||
  includes q "executive director" || includes q "museum director"

/-- Trigger of the mission branch. -/
def missionTrigger (q : String) : Bool :=
  hasAnyWholePhrase q ["mission", "purpose", "goal"]

/-- Trigger of the founded-year branch (`/when was.*(founded|established)/i`
and `/when did.*open/i` are the regex disjuncts). -/
def foundedTrigger (q : String) : Bool :=
  hasAnyWholePhrase q ["founded", "established"] ||
  (seqMatch q "when was" "founded" || seqMatch q "when was" "established") ||
  seqMatch q "when did" "open" ||
  hasWholePhrase q "built"

/-- Trigger of the former-name branch (raw `includes` tests in the source). -/
def formerNameTrigger (q : String) : Bool :=
  includes q "formerly" || includes q "former name" || includes q "used to be called" ||
  includes q "old name" || includes q "renamed" || includes q "name change"

/-- Trigger of the address/location branch. -/
def addressTrigger (q : String) : Bool :=
  hasAnyWholePhrase q ["address", "location"] ||
  seqMatch q "where" "located" ||
  includes q "where is it" || includes q "how do i get there"

/-- Trigger of the website branch. -/
def websiteTrigger (q : String) : Bool :=
  hasAnyWholePhrase q ["website", "official site", "url"]

/-- Trigger of the phone branch. -/
def phoneTrigger (q : String) : Bool :=
  hasAnyWholePhrase q ["phone", "telephone", "contact number"] || hasWholePhrase q "call"

/-- Trigger of the museum-name branch (`/what.*name/i` is the regex). -/
def museumNameTrigger (q : String) : Bool :=
  hasAnyWholePhrase q ["name of the museum", "full name"] || seqMatch q "what" "name"

/-- First category (in source order) whose trigger matches the lower-cased
question.  In the source the trigger tests form an if-chain whose conditions
read only the question, so the chain factors into this category dispatch
followed by `answerFor`. -/
def categoryOf (q : String) : Option ProfileCategory :=
  if directorTrigger q then some .director
  else if missionTrigger q then some .mission
  else if foundedTrigger q then some .founded
  else if formerNameTrigger q then some .formerName
  else if addressTrigger q then some .address
  else if websiteTrigger q then some .website
  else if phoneTrigger q then some .phone
  else if museumNameTrigger q then some .museumName
  else none

/-- Whether the fact field backing a category is JS-truthy, exactly the
condition of the populated branch in each category of the source. -/
def fieldPopulated : ProfileCategory → MuseumRow → Bool
  | .director, m => truthyStr m.director
  | .mission, m => truthyStr m.mission
  | .founded, m => truthyInt m.founded_year
  | .formerName, m => truthyStr m.former_name
  | .address, m => decide (locationOf m ≠ "")
  | .website, m => truthyStr m.website
  | .phone, m => truthyStr m.phone
  | .museumName, m => truthyStr m.name

/-- The populated-branch answer template of each category. -/
def templateFor : ProfileCategory → MuseumRow → String
  | .director, m => "The museum’s director is " ++ m.director.getD "" ++ "."
  | .mission, m => "Mission: " ++ m.mission.getD ""
  | .founded, m => "The museum was founded in " ++ toString (m.founded_year.getD 0) ++ "."
  | .formerName, m => "It was formerly known as " ++ m.former_name.getD "" ++ "."
  | .address, m => "The museum is located at " ++ locationOf m ++ "."
  | .website, m => "The official website is " ++ m.website.getD "" ++ "."
  | .phone, m => "You can reach the museum at " ++ m.phone.getD "" ++ "."
  | .museumName, m => "The museum is called " ++ m.name.getD "" ++ "."

/-- The empty-field refusal sentence of each category. -/
def refusalFor : ProfileCategory → String
  | .director =>
      "That isn’t available in the provided sources right now. Please check the museum’s official website for the latest leadership details."
  | .mission =>
      "That isn’t available in the provided sources right now. Please check the museum’s official website for the mission statement."
  | .founded =>
      "That isn’t available in the provided sources right now. Please check the museum’s official website for its history."
  | .formerName =>
      "That isn’t available in the provided sources right now. Please check the museum’s official website for details about the name change."
  | .address =>
      "That isn’t available in the provided sources right now. Please check the museum’s official website for location details."
  | .website =>
      "That isn’t available in the provided sources right now. Please check the museum’s official website."
  | .phone =>
      "That isn’t available in the provided sources right now. Please check the museum’s official website."
  | .museumName =>
      "That isn’t available in the provided sources right now. Please check the museum’s official website."

/-- Body of the category branch that fired: the populated template with one
synthetic citation, or the category's fixed refusal with no citations. -/
def answerFor (c : ProfileCategory) (m : MuseumRow) : ProfileAnswer :=
  if fieldPopulated c m then ⟨templateFor c m, [makeProfileSource m]⟩
  else ⟨refusalFor c, []⟩

/-- Model of `tryAnswerFromMuseumProfile` from `rag_chat/index.ts`: the source
lower-cases the question, walks the category if-chain (conditions read only
the question) and returns the matching branch's answer (which reads only the
museum row), or `null` when the row is missing or no category matches. -/
def tryAnswerFromMuseumProfile (questionRaw : String) (museum : Option MuseumRow) :
    Option ProfileAnswer :=
  match museum with
  | none => none
  | some m => (categoryOf (lowerStr questionRaw)).map fun c => answerFor c m

/-! ### Similarity normalization (`toNumber`, JS `parseFloat`) -/

/-- A JSON numeric-or-string field value as delivered by the storage layer
(`similarity: number | string`); a JS number that is `NaN` or `±Infinity` is
the `nonfinite` case, every other number is an exact rational. -/
inductive SimField where
  | num (x : ℚ)
  | nonfinite
  | str (s : String)
deriving DecidableEq

/-- Result of JS `parseFloat`. -/
inductive JsNum where
  | finite (q : ℚ)
  | nan
  | infinite (neg : Bool)
deriving DecidableEq

/-- Decimal digit. -/
def isDigitChar (c : Char) : Bool := '0' ≤ c && c ≤ '9'

/-- Whitespace skipped by `parseFloat` (ASCII whitespace and no-break space;
JS also skips the rarer Unicode space characters, which never occur here). -/
def jsWhitespace (c : Char) : Bool :=
  c = ' ' || c = '\t' || c = '\n' || c = '\r' ||
  c = '\x0b' || c = '\x0c' || c = ' '

/-- Numeric value of a digit run. -/
def digitsToNat (ds : List Char) : Nat :=
  ds.foldl (fun a c => a * 10 + (c.toNat - 48)) 0

/-- Model of JS `parseFloat`: skip whitespace, optional sign, then the longest
prefix that is `Infinity` or a decimal literal
`digits [. digits] [(e|E) [sign] digits]` (a literal needs at least one digit
before or after the dot; a malformed exponent part is ignored); `NaN` when no
prefix parses.  Number values are modelled as exact rationals. -/
def parseFloatJs (s : String) : JsNum :=
  let cs := s.data.dropWhile jsWhitespace
  let signed : Bool × List Char :=
    match cs with
    | '-' :: r => (true, r)
    | '+' :: r => (false, r)
    | r => (false, r)
  let neg := signed.1
  let cs1 := signed.2
  if cs1.take 8 = "Infinity".data then JsNum.infinite neg
  else
    let ip := cs1.takeWhile isDigitChar
    let rest := cs1.dropWhile isDigitChar
    let fp :=
      match rest with
      | '.' :: r => r.takeWhile isDigitChar
      | _ => []
    let rest2 :=
      match rest with
      | '.' :: r => r.dropWhile isDigitChar
      | _ => rest
    if ip = [] ∧ fp = [] then JsNum.nan
    else
      let exp : Int :=
        match rest2 with
        | e :: r =>
          if e = 'e' ∨ e = 'E' then
            let esigned : Int × List Char :=
              match r with
              | '-' :: rr => (-1, rr)
              | '+' :: rr => (1, rr)
              | rr => (1, rr)
            let ed := esigned.2.takeWhile isDigitChar
            if ed = [] then 0 else esigned.1 * (digitsToNat ed : Int)
          else 0
        | [] => 0
      -- the literal's exact value: (ip.fp) × 10^exp with the recorded sign,
      -- assembled as a single normalized fraction
      let m : Nat := digitsToNat ip * 10 ^ fp.length + digitsToNat fp
      let v : ℚ :=
        if 0 ≤ exp then mkRat (m * 10 ^ exp.toNat : Nat) (10 ^ fp.length)
        else mkRat m (10 ^ fp.length * 10 ^ (-exp).toNat)
      JsNum.finite (if neg then -v else v)

/-- Model of `toNumber` from `rag_chat/index.ts`: a finite number is kept, a
non-finite number is rejected, a string is parsed with `parseFloat` and kept
only when the result is finite. -/
def toNumber : SimField → Option ℚ
  | .num x => some x
  | .nonfinite => none
  | .str s =>
    match parseFloatJs s with
    | .finite q => some q
    | _ => none

/-! ### Handler pipeline (`rag_chat/index.ts` `handler`) -/

/-- A row returned by the vector-search RPC (`MatchRow`). -/
structure MatchRow where
  id : String
  chunk_text : String
  similarity : SimField
deriving DecidableEq

/-- A match row after similarity normalization. -/
structure StrongRow where
  id : String
  chunk_text : String
  similarity : ℚ
deriving DecidableEq

/-- `MIN_SIMILARITY` from `rag_chat/index.ts`: the literal `0.45`. -/
def MIN_SIMILARITY : ℚ := mkRat 45 100

/-- `MAX_MATCH_COUNT` from `rag_chat/index.ts`. -/
def MAX_MATCH_COUNT : Int := 10

/-- The rows mapped through `toNumber` and filtered to those whose similarity
is a number (the `.map` + type-guard `.filter` of the source). -/
def normalizeRows (rows : List MatchRow) : List StrongRow :=
  (rows.map fun r => (r.id, r.chunk_text, toNumber r.similarity)).filterMap
    fun r => r.2.2.map fun s => ⟨r.1, r.2.1, s⟩

/-- The strong-match set: similarity gate at `MIN_SIMILARITY`, then `slice`
to the requested count. -/
def strongOf (rows : List MatchRow) (requested : Int) : List StrongRow :=
  ((normalizeRows rows).filter fun r => decide (MIN_SIMILARITY ≤ r.similarity)).take
    requested.toNat

/-- The parsed request body. -/
structure RagRequest where
  museum_id : Option String
  question : Option String
  match_count : Option Int
deriving DecidableEq

/-- `body?.question?.trim() ?? ""`; JS `trim` removes leading and trailing
whitespace. -/
def questionOf (b : RagRequest) : String :=
  ⟨((b.question.getD "").data.dropWhile jsWhitespace).reverse.dropWhile jsWhitespace
    |>.reverse⟩

/-- `requestedMatchCount`: a positive numeric `match_count` clamped to
`MAX_MATCH_COUNT`, else the default 5. -/
def requestedCountOf (mc : Option Int) : Int :=
  match mc with
  | some n => if 0 < n then min n MAX_MATCH_COUNT else 5
  | none => 5

/-- `rpcMatchCount = min(max(requestedMatchCount, 5) + 5, MAX_MATCH_COUNT)`. -/
def rpcCountOf (mc : Option Int) : Int :=
  min (max (requestedCountOf mc) 5 + 5) MAX_MATCH_COUNT

/-- Outcomes the external collaborators would produce if called: the museum
row lookup, the embedding call, the vector-search RPC, the `content_chunks`
URL lookup, and the chat completion.  The handler consults them only at the
program points where the source performs the corresponding call. -/
structure UpstreamWorld where
  museumRow : Option MuseumRow
  embedOk : Bool
  matchResult : Except String (List MatchRow)
  urlRows : List (String × Option String)
  llmResult : Except String String

/-- Response body of the handler. -/
inductive RespBody where
  | ok (answer : String) (sources : List SourceOut)
  | err (msg : String)
  | text (s : String)
deriving DecidableEq

/-- The observable outcome of one handler invocation: HTTP status, body, and
which upstream calls were made. -/
structure HandlerOutcome where
  status : Nat
  body : RespBody
  museumLookup : Bool
  embedCalled : Bool
  searchCalled : Bool
  urlLookupCalled : Bool
  llmCalled : Bool
deriving DecidableEq

/-- The generic refusal of the `strong.length === 0` branch. -/
def genericRefusal : String :=
  "That isn’t available in the provided sources right now. Please check the museum’s official website."

/-- The refusal of the time-sensitive branch. -/
def timeSensitiveRefusal : String :=
  "That changes frequently and isn’t available in the provided sources right now. Please check the museum’s official website for the latest details."

/-- `srcMap.get(id) ?? null` over the rows of the `content_chunks` URL
lookup (absent key and stored `null` both yield `null`). -/
def findUrl : List (String × Option String) → String → Option String
  | [], _ => none
  | (i, u) :: rest, k => if i = k then u else findUrl rest k

/-- The body of `handler` after method/configuration/JSON-parse dispatch:
validation, profile short-circuit, embedding, retrieval, similarity gating,
the two refusal branches, and answer composition, in source order.
`jwtOk` models whether `getSupabaseUrlFromJwt` succeeds on the service key
(its failure is caught by the outer catch as a 500). -/
def ragCore (jwtOk : Bool) (body : RagRequest) (w : UpstreamWorld) : HandlerOutcome :=
  let question := questionOf body
  let requestedMatchCount := requestedCountOf body.match_count
  if ¬ (truthyStr body.museum_id = true ∧ isValidUuid (body.museum_id.getD "") = true) then
    ⟨400, .err "Invalid or missing museum_id", false, false, false, false, false⟩
  else if question = "" then
    ⟨400, .err "Missing question", false, false, false, false, false⟩
  else if jwtOk = false then
    ⟨500, .err "Internal server error", false, false, false, false, false⟩
  else
    match tryAnswerFromMuseumProfile question w.museumRow with
    | some pa => ⟨200, .ok pa.answer pa.sources, true, false, false, false, false⟩
    | none =>
      if w.embedOk = false then
        ⟨500, .err "Internal server error", true, true, false, false, false⟩
      else
        match w.matchResult with
        | .error _ => ⟨500, .err "Internal server error", true, true, true, false, false⟩
        | .ok rows =>
          let strong := strongOf rows requestedMatchCount
          if isTimeSensitive question = true ∧ strong = [] then
            ⟨200, .ok timeSensitiveRefusal [], true, true, true, false, false⟩
          else if strong = [] then
            ⟨200, .ok genericRefusal [], true, true, true, false, false⟩
          else
            match w.llmResult with
            | .error _ => ⟨500, .err "Internal server error", true, true, true, true, true⟩
            | .ok answer =>
              ⟨200,
               .ok answer (strong.map fun r => ⟨r.id, findUrl w.urlRows r.id, r.similarity⟩),
               true, true, true, true, true⟩

/-- Model of `handler` from `rag_chat/index.ts`.  `body?` is `none` when the
request body fails to parse as JSON (the thrown error is caught as a 500). -/
def ragHandler (keysPresent jwtOk : Bool) (method : String) (body? : Option RagRequest)
    (w : UpstreamWorld) : HandlerOutcome :=
  if method = "OPTIONS" then ⟨200, .text "ok", false, false, false, false, false⟩
  else if method ≠ "POST" then ⟨405, .err "Method not allowed", false, false, false, false, false⟩
  else if keysPresent = false then
    ⟨500, .err "Server configuration error", false, false, false, false, false⟩
  else
    match body? with
    | none => ⟨500, .err "Internal server error", false, false, false, false, false⟩
    | some body => ragCore jwtOk body w

/-! ### Storage-layer vector search (`public.match_chunks`, migration 003) -/

/-- A row of the `content_chunks` table (the jsonb metadata is opaque here). -/
structure ContentChunk where
  id : String
  museum_id : String
  chunk_text : String
  source_url : Option String
  metadata : String
  embedding : Option (List ℚ)
deriving DecidableEq

/-- A row returned by `match_chunks`. -/
structure ChunkMatch where
  id : String
  chunk_text : String
  source_url : Option String
  metadata : String
  similarity : ℚ
deriving DecidableEq

/-- Stable insertion into a distance-ascending list (`ORDER BY`
`embedding <-> query`). -/
def insertByDist (x : ContentChunk × ℚ) : List (ContentChunk × ℚ) → List (ContentChunk × ℚ)
  | [] => [x]
  | y :: ys => if x.2 ≤ y.2 then x :: y :: ys else y :: insertByDist x ys

/-- Sort by ascending distance. -/
def sortByDist : List (ContentChunk × ℚ) → List (ContentChunk × ℚ)
  | [] => []
  | x :: xs => insertByDist x (sortByDist xs)

/-- Model of the SQL function `public.match_chunks`: over the
`content_chunks` table, keep the rows of the requested tenant that have an
embedding, order by ascending distance to the query embedding, limit to
`p_match_count`, and report `1 - distance` as the similarity.  `dist`
abstracts the pgvector `<->` operator (the claims hold for every distance
function, i.e. under adversarial similarity scores). -/
def match_chunks (table : List ContentChunk) (dist : List ℚ → List ℚ → ℚ)
    (p_museum_id : String) (p_query_embedding : List ℚ) (p_match_count : Int) :
    List ChunkMatch :=
  let filtered := table.filter fun c =>
    decide (c.museum_id = p_museum_id) && c.embedding.isSome
  let scored := filtered.map fun c => (c, dist (c.embedding.getD []) p_query_embedding)
  ((sortByDist scored).take p_match_count.toNat).map fun cd =>
    ⟨cd.1.id, cd.1.chunk_text, cd.1.source_url, cd.1.metadata, 1 - cd.2⟩

/-! ### Presentation-layer citation dedupe (`CitationList` in `App.tsx`) -/

/-- `s.source_url ?? "no_url:" + s.id`. -/
def dedupeKey (s : SourceOut) : String :=
  s.source_url.getD ("no_url:" ++ s.id)

/-- First binding of a key in the insertion-ordered map (`Map.get`). -/
def findVal : List (String × SourceOut) → String → Option SourceOut
  | [], _ => none
  | (k', v) :: rest, k => if k' = k then some v else findVal rest k

/-- `Map.set`: replace the binding in place when the key exists, else append. -/
def setVal : List (String × SourceOut) → String → SourceOut → List (String × SourceOut)
  | [], k, v => [(k, v)]
  | (k', v') :: rest, k, v =>
    if k' = k then (k, v) :: rest else (k', v') :: setVal rest k v

/-- One step of the `reduce`: keep the entry for the key unless the incoming
source has strictly higher similarity. -/
def dedupeStep (m : List (String × SourceOut)) (s : SourceOut) : List (String × SourceOut) :=
  let k := dedupeKey s
  match findVal m k with
  | none => setVal m k s
  | some ex => if ex.similarity < s.similarity then setVal m k s else m

/-- Stable insertion into a similarity-descending list (the JS stable
`sort((a, b) => b.similarity - a.similarity)`). -/
def insertBySimDesc (s : SourceOut) : List SourceOut → List SourceOut
  | [] => [s]
  | t :: ts => if t.similarity ≤ s.similarity then s :: t :: ts else t :: insertBySimDesc s ts

/-- Stable sort by descending similarity. -/
def sortBySimDesc : List SourceOut → List SourceOut
  | [] => []
  | s :: ss => insertBySimDesc s (sortBySimDesc ss)

/-- Model of the dedupe in `CitationList`: group by URL (synthetic per-id key
when absent) keeping the highest-similarity entry per group, sort the group
representatives by descending similarity, and keep only the top one
(`slice(0, 1)`). -/
def dedupeTopOne (sources : List SourceOut) : List SourceOut :=
  (sortBySimDesc ((sources.foldl dedupeStep []).map Prod.snd)).take 1

/-! ### Concrete fixtures used by witnesses and end-to-end scenarios -/

/-- The museum id shipped in the frontend's museum selector. -/
def buffaloId : String := "f817a6f8-8f99-4618-86a2-603d0b323eff"

/-- A fully populated museum fact record. -/
def sampleMuseum : MuseumRow :=
  { id := buffaloId
    name := some "Buffalo AKG Art Museum"
    address := some "1285 Elmwood Ave"
    city := some "Buffalo"
    state := some "NY"
    postal_code := some "14222"
    country := some "USA"
    website := some "https://buffaloakg.org"
    phone := some "716-882-8700"
    director := some "Janne Siren"
    founded_year := some 1862
    former_name := some "Albright-Knox Art Gallery"
    mission := some "Advancing art." }

/-- `sampleMuseum` with no founded year. -/
def sampleMuseumNoYear : MuseumRow := { sampleMuseum with founded_year := none }

/-- A world whose tenant lookup returns `sampleMuseum`. -/
def wProfile : UpstreamWorld :=
  { museumRow := some sampleMuseum, embedOk := true, matchResult := .ok []
    urlRows := [], llmResult := .ok "" }

/-- A world with no museum row and only weak or unparseable matches. -/
def wWeak : UpstreamWorld :=
  { museumRow := none, embedOk := true
    matchResult := .ok [⟨"c1", "text1", .num (mkRat 2 10)⟩, ⟨"c2", "text2", .str "oops"⟩]
    urlRows := [], llmResult := .ok "llm answer" }

/-- Request asking the founded-year profile question. -/
def bFounded : RagRequest :=
  { museum_id := some buffaloId, question := some "When was the museum founded?"
    match_count := none }

/-- Request asking a non-profile, non-time-sensitive question. -/
def bHours : RagRequest :=
  { museum_id := some buffaloId, question := some "What are the hours?"
    match_count := none }

/-- Request asking a time-sensitive question. -/
def bToday : RagRequest :=
  { museum_id := some buffaloId, question := some "What's showing today?"
    match_count := none }

/-- A world whose tenant has no founded year even though a strongly matching
passage exists in retrieval. -/
def wNoYearStrong : UpstreamWorld :=
  { museumRow := some sampleMuseumNoYear, embedOk := true
    matchResult := .ok [⟨"c1", "The museum opened long ago.", .num (mkRat 9 10)⟩]
    urlRows := [("c1", some "https://buffaloakg.org/history")], llmResult := .ok "llm answer" }

/-- A two-tenant chunk table. -/
def twoTenantTable : List ContentChunk :=
  [⟨"c1", "tenantA", "hello", none, "{}", some [1, 0]⟩,
   ⟨"c2", "tenantB", "other", none, "{}", some [0, 1]⟩]

/-! ### Shared lemmas -/

theorem mem_insertByDist {x y : ContentChunk × ℚ} {l : List (ContentChunk × ℚ)} :
    x ∈ insertByDist y l ↔ x = y ∨ x ∈ l := by
  induction l with
  | nil => simp [insertByDist]
  | cons z zs ih =>
    simp only [insertByDist]
    split
    · simp [List.mem_cons]
    · simp [List.mem_cons, ih, or_left_comm]

theorem mem_sortByDist {x : ContentChunk × ℚ} {l : List (ContentChunk × ℚ)} :
    x ∈ sortByDist l ↔ x ∈ l := by
  induction l with
  | nil => simp [sortByDist]
  | cons z zs ih => simp [sortByDist, mem_insertByDist, ih]

/-! ### C1: tenant isolation of the storage-layer vector search -/

/-- C1. Every row returned by `match_chunks` comes from a chunk of the
requested tenant, for every distance function (i.e. regardless of the
similarity scores): the tenant filter is applied at the storage layer. -/
theorem match_chunks_tenant_scoped (table : List ContentChunk)
    (dist : List ℚ → List ℚ → ℚ) (p_museum_id : String)
    (p_query_embedding : List ℚ) (p_match_count : Int) (r : ChunkMatch)
    (hr : r ∈ match_chunks table dist p_museum_id p_query_embedding p_match_count) :
    ∃ c ∈ table, c.museum_id = p_museum_id ∧ r.id = c.id ∧ r.chunk_text = c.chunk_text := by
  simp only [match_chunks, List.mem_map] at hr
  obtain ⟨cd, hcd, hmap⟩ := hr
  have h1 := List.mem_of_mem_take hcd
  rw [mem_sortByDist] at h1
  simp only [List.mem_map] at h1
  obtain ⟨c, hc, hcd2⟩ := h1
  rw [List.mem_filter] at hc
  obtain ⟨hctab, hcond⟩ := hc
  rw [Bool.and_eq_true, decide_eq_true_eq] at hcond
  refine ⟨c, hctab, hcond.1, ?_, ?_⟩
  · rw [← hmap, ← hcd2]
  · rw [← hmap, ← hcd2]

/-- Witness for C1 at a two-tenant table and a constant distance function. -/
theorem match_chunks_tenant_scoped_witness :
    ∃ c ∈ twoTenantTable, c.museum_id = "tenantA" ∧
      (⟨"c1", "hello", none, "{}", 1 - 0⟩ : ChunkMatch).id = c.id ∧
      (⟨"c1", "hello", none, "{}", 1 - 0⟩ : ChunkMatch).chunk_text = c.chunk_text :=
  match_chunks_tenant_scoped twoTenantTable (fun _ _ => 0) "tenantA" [1, 0] 5
    ⟨"c1", "hello", none, "{}", 1 - 0⟩ (List.Mem.head _)

/-! ### C2: similarity gating and the generic refusal -/

/-- C2. Matches below the 0.45 floor never enter the strong-match set; the
strong-match set is an order-preserving selection from the normalized rows
truncated to the requested count; and with an empty strong-match set on a
non-time-sensitive question the handler returns the fixed generic refusal
with empty sources as a 200 response without calling the language model. -/
theorem similarity_gating_and_generic_refusal :
    (∀ (rows : List MatchRow) (n : Int) (r : StrongRow),
        r ∈ strongOf rows n → MIN_SIMILARITY ≤ r.similarity)
    ∧ (∀ (rows : List MatchRow) (n : Int),
        List.Sublist (strongOf rows n) (normalizeRows rows)
        ∧ (strongOf rows n).length ≤ n.toNat)
    ∧ (∀ (b : RagRequest) (w : UpstreamWorld) (rows : List MatchRow),
        truthyStr b.museum_id = true →
        isValidUuid (b.museum_id.getD "") = true →
        questionOf b ≠ "" →
        tryAnswerFromMuseumProfile (questionOf b) w.museumRow = none →
        w.embedOk = true →
        w.matchResult = .ok rows →
        isTimeSensitive (questionOf b) = false →
        strongOf rows (requestedCountOf b.match_count) = [] →
        ragHandler true true "POST" (some b) w =
          ⟨200, .ok genericRefusal [], true, true, true, false, false⟩) := by
  refine ⟨?_, ?_, ?_⟩
  · intro rows n r hr
    have h1 := List.mem_of_mem_take hr
    rw [List.mem_filter] at h1
    exact of_decide_eq_true h1.2
  · intro rows n
    exact ⟨(List.take_sublist _ _).trans (List.filter_sublist _), List.length_take_le _ _⟩
  · intro b w rows h1 h2 h3 h4 h5 h6 h7 h8
    have hred : ragHandler true true "POST" (some b) w = ragCore true b w := rfl
    rw [hred]
    simp only [ragCore, h1, h2, h3, h4, h5, h6, h7, h8]
    simp

/-- Witness for C2: a sub-threshold match and an unparseable match leave the
strong-match set empty, and the non-time-sensitive question receives the
generic refusal without a language-model call. -/
theorem similarity_gating_and_generic_refusal_witness :
    MIN_SIMILARITY ≤ (⟨"c3", "t", mkRat 7 10⟩ : StrongRow).similarity
    ∧ ragHandler true true "POST" (some bHours) wWeak =
        ⟨200, .ok genericRefusal [], true, true, true, false, false⟩ :=
  ⟨similarity_gating_and_generic_refusal.1
      [⟨"c1", "t", .num (mkRat 45 100)⟩, ⟨"c3", "t", .str "0.7"⟩] 5
      ⟨"c3", "t", mkRat 7 10⟩ (by decide),
   similarity_gating_and_generic_refusal.2.2 bHours wWeak
      [⟨"c1", "text1", .num (mkRat 2 10)⟩, ⟨"c2", "text2", .str "oops"⟩]
      (by decide) (by decide) (by decide) (by decide) (by decide) rfl
      (by decide) (by decide)⟩

/-! ### C3: structured-fact answers from the museum profile -/

/-- C3. When a category trigger matches and its fact field is populated, the
resolver answers with that category's fixed template filled from the field
and exactly one synthetic citation of similarity 1 whose URL is the tenant's
website (or null); concretely, with `founded_year = 1862` the question
"When was the museum founded?" is answered from the profile with no
embedding, retrieval, or language-model call. -/
theorem profile_fact_template_and_single_citation :
    (∀ (q : String) (m : MuseumRow) (c : ProfileCategory),
        categoryOf (lowerStr q) = some c →
        fieldPopulated c m = true →
        tryAnswerFromMuseumProfile q (some m) =
          some ⟨templateFor c m, [makeProfileSource m]⟩)
    ∧ (∀ m : MuseumRow,
        (makeProfileSource m).similarity = 1 ∧ (makeProfileSource m).source_url = m.website)
    ∧ (∀ (b : RagRequest) (w : UpstreamWorld) (m : MuseumRow) (c : ProfileCategory),
        truthyStr b.museum_id = true →
        isValidUuid (b.museum_id.getD "") = true →
        questionOf b ≠ "" →
        w.museumRow = some m →
        categoryOf (lowerStr (questionOf b)) = some c →
        fieldPopulated c m = true →
        ragHandler true true "POST" (some b) w =
          ⟨200, .ok (templateFor c m) [makeProfileSource m], true, false, false, false, false⟩)
    ∧ ragHandler true true "POST" (some bFounded) wProfile =
        ⟨200,
         .ok "The museum was founded in 1862."
           [⟨"museum_profile:" ++ buffaloId, some "https://buffaloakg.org", 1⟩],
         true, false, false, false, false⟩ := by
  have hres : ∀ (q : String) (m : MuseumRow) (c : ProfileCategory),
      categoryOf (lowerStr q) = some c → fieldPopulated c m = true →
      tryAnswerFromMuseumProfile q (some m) =
        some ⟨templateFor c m, [makeProfileSource m]⟩ := by
    intro q m c hcat hpop
    simp [tryAnswerFromMuseumProfile, hcat, answerFor, hpop]
  refine ⟨hres, fun m => ⟨rfl, rfl⟩, ?_, by decide⟩
  intro b w m c h1 h2 h3 h4 h5 h6
  have hred : ragHandler true true "POST" (some b) w = ragCore true b w := rfl
  have hprof : tryAnswerFromMuseumProfile (questionOf b) w.museumRow =
      some ⟨templateFor c m, [makeProfileSource m]⟩ := by
    rw [h4]; exact hres _ _ _ h5 h6
  rw [hred]
  simp only [ragCore, h1, h2, h3, hprof]
  simp

/-- Witness for C3 at the founded-year scenario. -/
theorem profile_fact_template_and_single_citation_witness :
    tryAnswerFromMuseumProfile "When was the museum founded?" (some sampleMuseum) =
      some ⟨templateFor ProfileCategory.founded sampleMuseum, [makeProfileSource sampleMuseum]⟩ :=
  profile_fact_template_and_single_citation.1 "When was the museum founded?" sampleMuseum
    ProfileCategory.founded (by decide) (by decide)

/-! ### C4: refusal when a triggered category's field is empty or absent -/

/-- C4. When a category trigger matches and its fact field is empty or
absent, the resolver returns that category's fixed refusal sentence (each
starts with the fixed core refusal) with no citations, and the handler
short-circuits with it as a 200 response, independent of the retrieval
world: no embedding, vector-search, or language-model call is made. -/
theorem profile_missing_field_refusal :
    (∀ (q : String) (m : MuseumRow) (c : ProfileCategory),
        categoryOf (lowerStr q) = some c →
        fieldPopulated c m = false →
        tryAnswerFromMuseumProfile q (some m) = some ⟨refusalFor c, []⟩)
    ∧ (∀ c : ProfileCategory,
        occursAt (refusalFor c).data
          "That isn’t available in the provided sources right now.".data 0 = true)
    ∧ (∀ (b : RagRequest) (w : UpstreamWorld) (m : MuseumRow) (c : ProfileCategory),
        truthyStr b.museum_id = true →
        isValidUuid (b.museum_id.getD "") = true →
        questionOf b ≠ "" →
        w.museumRow = some m →
        categoryOf (lowerStr (questionOf b)) = some c →
        fieldPopulated c m = false →
        ragHandler true true "POST" (some b) w =
          ⟨200, .ok (refusalFor c) [], true, false, false, false, false⟩) := by
  have hres : ∀ (q : String) (m : MuseumRow) (c : ProfileCategory),
      categoryOf (lowerStr q) = some c → fieldPopulated c m = false →
      tryAnswerFromMuseumProfile q (some m) = some ⟨refusalFor c, []⟩ := by
    intro q m c hcat hpop
    simp [tryAnswerFromMuseumProfile, hcat, answerFor, hpop]
  refine ⟨hres, by intro c; cases c <;> decide, ?_⟩
  intro b w m c h1 h2 h3 h4 h5 h6
  have hred : ragHandler true true "POST" (some b) w = ragCore true b w := rfl
  have hprof : tryAnswerFromMuseumProfile (questionOf b) w.museumRow =
      some ⟨refusalFor c, []⟩ := by
    rw [h4]; exact hres _ _ _ h5 h6
  rw [hred]
  simp only [ragCore, h1, h2, h3, hprof]
  simp

/-- Witness for C4: no founded year, same founded question, a strongly
matching passage exists, yet the fixed refusal is returned with no upstream
calls. -/
theorem profile_missing_field_refusal_witness :
    ragHandler true true "POST" (some bFounded) wNoYearStrong =
      ⟨200, .ok (refusalFor ProfileCategory.founded) [], true, false, false, false, false⟩ :=
  profile_missing_field_refusal.2.2 bFounded wNoYearStrong sampleMuseumNoYear
    ProfileCategory.founded (by decide) (by decide) (by decide) rfl (by decide) (by decide)

/-! ### C5: time-sensitive refusal -/

/-- C5. For a time-sensitive question whose strong-match set is empty the
handler returns the fixed "changes frequently" refusal with no citations and
no language-model call; that refusal differs from the generic refusal and
explicitly mentions frequent change. -/
theorem time_sensitive_refusal :
    (∀ (b : RagRequest) (w : UpstreamWorld) (rows : List MatchRow),
        truthyStr b.museum_id = true →
        isValidUuid (b.museum_id.getD "") = true →
        questionOf b ≠ "" →
        tryAnswerFromMuseumProfile (questionOf b) w.museumRow = none →
        w.embedOk = true →
        w.matchResult = .ok rows →
        isTimeSensitive (questionOf b) = true →
        strongOf rows (requestedCountOf b.match_count) = [] →
        ragHandler true true "POST" (some b) w =
          ⟨200, .ok timeSensitiveRefusal [], true, true, true, false, false⟩)
    ∧ timeSensitiveRefusal ≠ genericRefusal
    ∧ includes timeSensitiveRefusal "changes frequently" = true := by
  refine ⟨?_, by decide, by decide⟩
  intro b w rows h1 h2 h3 h4 h5 h6 h7 h8
  have hred : ragHandler true true "POST" (some b) w = ragCore true b w := rfl
  rw [hred]
  simp only [ragCore, h1, h2, h3, h4, h5, h6, h7, h8]
  simp

/-- Witness for C5: "What's showing today?" with only weak or unparseable
matches receives the time-sensitive refusal without a language-model call. -/
theorem time_sensitive_refusal_witness :
    ragHandler true true "POST" (some bToday) wWeak =
      ⟨200, .ok timeSensitiveRefusal [], true, true, true, false, false⟩ :=
  time_sensitive_refusal.1 bToday wWeak
    [⟨"c1", "text1", .num (mkRat 2 10)⟩, ⟨"c2", "text2", .str "oops"⟩]
    (by decide) (by decide) (by decide) (by decide) (by decide) rfl (by decide) (by decide)

/-! ### C8: strict tenant-id validation before any upstream call -/

/-- C8. A POST request whose tenant id is missing, empty, or not a UUID gets
an error response with a non-2xx status, and no tenant lookup, embedding,
vector search, URL lookup, or language-model call is made (when the service
credentials are absent the request likewise dies with a 5xx before any
upstream call). -/
theorem invalid_tenant_rejected (keysPresent jwtOk : Bool) (b : RagRequest)
    (w : UpstreamWorld)
    (hbad : truthyStr b.museum_id = false ∨ isValidUuid (b.museum_id.getD "") = false) :
    400 ≤ (ragHandler keysPresent jwtOk "POST" (some b) w).status
    ∧ (∃ msg, (ragHandler keysPresent jwtOk "POST" (some b) w).body = RespBody.err msg)
    ∧ (ragHandler keysPresent jwtOk "POST" (some b) w).museumLookup = false
    ∧ (ragHandler keysPresent jwtOk "POST" (some b) w).embedCalled = false
    ∧ (ragHandler keysPresent jwtOk "POST" (some b) w).searchCalled = false
    ∧ (ragHandler keysPresent jwtOk "POST" (some b) w).urlLookupCalled = false
    ∧ (ragHandler keysPresent jwtOk "POST" (some b) w).llmCalled = false := by
  cases keysPresent with
  | false =>
    have h : ragHandler false jwtOk "POST" (some b) w =
        ⟨500, .err "Server configuration error", false, false, false, false, false⟩ := rfl
    rw [h]
    exact ⟨by norm_num, ⟨_, rfl⟩, rfl, rfl, rfl, rfl, rfl⟩
  | true =>
    have hred : ragHandler true jwtOk "POST" (some b) w = ragCore jwtOk b w := rfl
    have hcond : ¬ (truthyStr b.museum_id = true ∧ isValidUuid (b.museum_id.getD "") = true) := by
      rcases hbad with h | h <;> simp [h]
    have h2 : ragCore jwtOk b w =
        ⟨400, .err "Invalid or missing museum_id", false, false, false, false, false⟩ := by
      simp only [ragCore]
      rw [if_pos hcond]
    rw [hred, h2]
    exact ⟨by norm_num, ⟨_, rfl⟩, rfl, rfl, rfl, rfl, rfl⟩

/-- Witness for C8 at a malformed tenant id. -/
theorem invalid_tenant_rejected_witness :
    400 ≤ (ragHandler true true "POST" (some ⟨some "not-a-uuid", some "hi", none⟩) wWeak).status
    ∧ (∃ msg, (ragHandler true true "POST" (some ⟨some "not-a-uuid", some "hi", none⟩) wWeak).body
          = RespBody.err msg)
    ∧ (ragHandler true true "POST" (some ⟨some "not-a-uuid", some "hi", none⟩) wWeak).museumLookup = false
    ∧ (ragHandler true true "POST" (some ⟨some "not-a-uuid", some "hi", none⟩) wWeak).embedCalled = false
    ∧ (ragHandler true true "POST" (some ⟨some "not-a-uuid", some "hi", none⟩) wWeak).searchCalled = false
    ∧ (ragHandler true true "POST" (some ⟨some "not-a-uuid", some "hi", none⟩) wWeak).urlLookupCalled = false
    ∧ (ragHandler true true "POST" (some ⟨some "not-a-uuid", some "hi", none⟩) wWeak).llmCalled = false :=
  invalid_tenant_rejected true true ⟨some "not-a-uuid", some "hi", none⟩ wWeak
    (Or.inr (by decide))

/-! ### C9: similarity values are normalized and unparseable ones dropped -/

/-- C9. Every normalized match carries the parsed numeric similarity of the
retrieved row it came from (never a default), the normalized list keeps
exactly the rows whose similarity parses to a finite number, rows that all
fail to parse normalize to the empty list, and string/ non-finite values
behave as specified. -/
theorem similarity_normalization_drops_unparseable :
    (∀ (rows : List MatchRow) (n : StrongRow), n ∈ normalizeRows rows →
        ∃ r ∈ rows, n.id = r.id ∧ n.chunk_text = r.chunk_text
          ∧ toNumber r.similarity = some n.similarity)
    ∧ (∀ rows : List MatchRow,
        (normalizeRows rows).length
          = (rows.filter fun r => (toNumber r.similarity).isSome).length)
    ∧ (∀ rows : List MatchRow,
        (∀ r ∈ rows, toNumber r.similarity = none) → normalizeRows rows = [])
    ∧ toNumber (.str "0.62") = some (mkRat 62 100)
    ∧ toNumber (.str "not a number") = none
    ∧ toNumber .nonfinite = none := by
  have hlen : ∀ rows : List MatchRow,
      (normalizeRows rows).length
        = (rows.filter fun r => (toNumber r.similarity).isSome).length := by
    intro rows
    induction rows with
    | nil => rfl
    | cons r rs ih =>
      simp only [normalizeRows, List.map_cons, List.filterMap_cons, List.filterMap_map,
        List.filter_cons] at ih ⊢
      cases h : toNumber r.similarity with
      | none => simp [h, ih]
      | some s => simp [h, ih]
  refine ⟨?_, hlen, ?_, by decide, by decide, rfl⟩
  · intro rows n hn
    simp only [normalizeRows, List.mem_filterMap, List.mem_map] at hn
    obtain ⟨x, ⟨r, hr, rfl⟩, hg⟩ := hn
    rw [Option.map_eq_some'] at hg
    obtain ⟨s, hs, rfl⟩ := hg
    exact ⟨r, hr, rfl, rfl, hs⟩
  · intro rows h
    rw [← List.length_eq_zero, hlen]
    rw [List.length_eq_zero, List.filter_eq_nil_iff]
    intro r hr
    rw [h r hr]
    simp

/-- Witness for C9: the parseable match survives with its parsed value. -/
theorem similarity_normalization_drops_unparseable_witness :
    ∃ r ∈ [(⟨"c1", "text1", .num (mkRat 2 10)⟩ : MatchRow), ⟨"c2", "text2", .str "oops"⟩],
      (⟨"c1", "text1", mkRat 2 10⟩ : StrongRow).id = r.id
      ∧ (⟨"c1", "text1", mkRat 2 10⟩ : StrongRow).chunk_text = r.chunk_text
      ∧ toNumber r.similarity = some (⟨"c1", "text1", mkRat 2 10⟩ : StrongRow).similarity :=
  similarity_normalization_drops_unparseable.1
    [⟨"c1", "text1", .num (mkRat 2 10)⟩, ⟨"c2", "text2", .str "oops"⟩]
    ⟨"c1", "text1", mkRat 2 10⟩ (by decide)

/-! ### Word-boundary lemmas for the whole-phrase matcher -/

theorem toNat_ofNat_small {n : Nat} (h : n < 55296) : (Char.ofNat n).toNat = n := by
  have hv : n.isValidChar := Or.inl h
  unfold Char.ofNat
  rw [dif_pos hv]
  rfl

theorem lowerChar_idem (c : Char) : lowerChar (lowerChar c) = lowerChar c := by
  unfold lowerChar
  by_cases h : (65 ≤ c.toNat && c.toNat ≤ 90) = true
  · rw [if_pos h, if_neg]
    rw [Bool.and_eq_true, decide_eq_true_eq, decide_eq_true_eq] at h
    have ht : (Char.ofNat (c.toNat + 32)).toNat = c.toNat + 32 :=
      toNat_ofNat_small (by omega)
    simp only [ht, Bool.and_eq_true, decide_eq_true_eq, not_and]
    omega
  · rw [if_neg h, if_neg h]

theorem lowerStr_idem (s : String) : lowerStr (lowerStr s) = lowerStr s := by
  show (⟨(s.data.map lowerChar).map lowerChar⟩ : String) = ⟨s.data.map lowerChar⟩
  rw [List.map_map]
  exact congrArg String.mk (List.map_congr_left fun a _ => lowerChar_idem a)

theorem hasWholePhrase_lowerStr (q p : String) :
    hasWholePhrase (lowerStr q) p = hasWholePhrase q p := by
  unfold hasWholePhrase
  rw [lowerStr_idem]

theorem wordCharAt_lt {q : List Char} {i : Nat} (h : wordCharAt q i = true) :
    i < q.length := by
  unfold wordCharAt at h
  cases hq : q[i]? with
  | none => rw [hq] at h; simp at h
  | some c =>
    by_contra hge
    rw [List.getElem?_eq_none (Nat.le_of_not_lt hge)] at hq
    cases hq

theorem occursAt_wordCharAt {q p : List Char} {i j : Nat}
    (h : occursAt q p i = true) (hj : j < p.length) :
    wordCharAt q (i + j) = wordCharAt p j := by
  have he : (q.drop i).take p.length = p := of_decide_eq_true h
  have hq : q[i + j]? = p[j]? := by
    conv_rhs => rw [← he]
    rw [List.getElem?_take, if_pos hj, List.getElem?_drop]
  unfold wordCharAt
  rw [hq]

/-- A phrase whose first and last characters are word characters is never
matched by the whole-phrase regex `(^|\b)p(\b|$)` in a subject where every
occurrence of the phrase is flanked by a word character (i.e. occurs only
inside a longer word). -/
theorem hasWholePhrase_false_of_embedded (q p : String)
    (hfirst : wordCharAt (lowerStr p).data 0 = true)
    (hlast : wordCharAt (lowerStr p).data ((lowerStr p).data.length - 1) = true)
    (hemb : occursOnlyEmbedded (lowerStr q).data (lowerStr p).data = true) :
    hasWholePhrase q p = false := by
  simp only [hasWholePhrase]
  rw [List.any_eq_false]
  intro i hi
  simp only [occursOnlyEmbedded, List.all_eq_true] at hemb
  have hplen : 0 < (lowerStr p).data.length := wordCharAt_lt hfirst
  cases ho : occursAt (lowerStr q).data (lowerStr p).data i with
  | false => simp [ho]
  | true =>
    have hflank := hemb i hi
    rw [ho] at hflank
    rw [Bool.not_true, Bool.false_or] at hflank
    rcases Bool.or_eq_true_iff.mp hflank with hleft | hright
    · rw [Bool.and_eq_true, decide_eq_true_eq] at hleft
      obtain ⟨hiz, hwprev⟩ := hleft
      have hqi : wordCharAt (lowerStr q).data (i + 0) = wordCharAt (lowerStr p).data 0 :=
        occursAt_wordCharAt ho hplen
      rw [Nat.add_zero] at hqi
      have hb : boundaryAt (lowerStr q).data i = false := by
        unfold boundaryAt
        rw [hqi, hfirst, hwprev]
        simp [hiz]
      have hz : decide (i = 0) = false := by simp [hiz]
      simp [ho, hb, hz]
    · have hlt : i + (lowerStr p).data.length < (lowerStr q).data.length :=
        wordCharAt_lt hright
      have hv1 : wordCharAt (lowerStr q).data (i + ((lowerStr p).data.length - 1))
          = wordCharAt (lowerStr p).data ((lowerStr p).data.length - 1) :=
        occursAt_wordCharAt ho (by omega)
      have hb2 : boundaryAt (lowerStr q).data (i + (lowerStr p).data.length) = false := by
        unfold boundaryAt
        have harith : i + (lowerStr p).data.length - 1 = i + ((lowerStr p).data.length - 1) := by
          omega
        have hnz : decide (i + (lowerStr p).data.length ≠ 0) = true := by
          rw [decide_eq_true_eq]
          omega
        rw [hnz, harith, hv1, hlast, hright]
        rfl
      have hend : decide (i + (lowerStr p).data.length = (lowerStr q).data.length) = false := by
        rw [decide_eq_false_iff_not]
        omega
      have hB : (boundaryAt (lowerStr q).data (i + (lowerStr p).data.length)
          || decide (i + (lowerStr p).data.length = (lowerStr q).data.length)) = false := by
        rw [hb2, hend]
        rfl
      simp only [hB, Bool.and_false]
      exact fun h => absurd h (by simp)

/-! ### C6: whole-phrase versus raw-substring trigger matching -/

/-- Counterexample to C6 as stated: "formerly" occurs in the question
"reformerlyzed" only inside a longer word (the whole-phrase matcher
correctly rejects it), yet the former-name category fires, because that
category's triggers are raw `includes` tests, not whole-phrase matches. -/
theorem trigger_whole_phrase_counterexample :
    includes "reformerlyzed" "formerly" = true
    ∧ occursOnlyEmbedded "reformerlyzed".data "formerly".data = true
    ∧ hasWholePhrase "reformerlyzed" "formerly" = false
    ∧ categoryOf "reformerlyzed" = some ProfileCategory.formerName
    ∧ tryAnswerFromMuseumProfile "reformerlyzed" (some sampleMuseum) =
        some ⟨"It was formerly known as Albright-Knox Art Gallery.",
              [makeProfileSource sampleMuseum]⟩ :=
  ⟨by decide, by decide, by decide, by decide, by decide⟩

/-- C6 (amended). Trigger phrases tested through the whole-phrase helper
match only at word boundaries: whenever such a phrase (first and last
characters word characters, as all the source's trigger phrases are) occurs
in a question only inside longer words, the whole-phrase helper does not
fire.  (Categories also using raw-substring or `.*`-regex triggers can still
fire on embedded occurrences, per the counterexample.) -/
theorem whole_phrase_triggers_word_bounded (q p : String)
    (hfirst : wordCharAt (lowerStr p).data 0 = true)
    (hlast : wordCharAt (lowerStr p).data ((lowerStr p).data.length - 1) = true)
    (hemb : occursOnlyEmbedded (lowerStr q).data (lowerStr p).data = true) :
    hasWholePhrase q p = false :=
  hasWholePhrase_false_of_embedded q p hfirst hlast hemb

/-- Witness for the amended C6: "mission" inside "admission fee" does not
fire the whole-phrase matcher. -/
theorem whole_phrase_triggers_word_bounded_witness :
    hasWholePhrase "what is the admission fee" "mission" = false :=
  whole_phrase_triggers_word_bounded "what is the admission fee" "mission"
    (by decide) (by decide) (by decide)

/-! ### C7: "admission" does not fire the mission category -/

/-- C7. For every question in which "mission" occurs only inside longer
words (as in "admission") and the other mission triggers "purpose" and
"goal" do not fire, the mission category does not fire: the trigger is false
and the category dispatch never selects the mission branch. -/
theorem admission_does_not_trigger_mission (q : String)
    (hemb : occursOnlyEmbedded (lowerStr q).data "mission".data = true)
    (hp : hasWholePhrase q "purpose" = false)
    (hg : hasWholePhrase q "goal" = false) :
    missionTrigger (lowerStr q) = false
    ∧ categoryOf (lowerStr q) ≠ some ProfileCategory.mission := by
  have hm : hasWholePhrase q "mission" = false := by
    apply hasWholePhrase_false_of_embedded
    · decide
    · decide
    · have hmlow : lowerStr "mission" = "mission" := by decide
      rw [hmlow]
      exact hemb
  have htrig : missionTrigger (lowerStr q) = false := by
    simp only [missionTrigger, hasAnyWholePhrase, List.any_cons, List.any_nil,
      hasWholePhrase_lowerStr, hm, hp, hg]
    rfl
  refine ⟨htrig, ?_⟩
  unfold categoryOf
  rw [htrig]
  repeat' split
  all_goals simp_all

/-- Witness for C7 at the question "How much is admission?". -/
theorem admission_does_not_trigger_mission_witness :
    missionTrigger (lowerStr "How much is admission?") = false
    ∧ categoryOf (lowerStr "How much is admission?") ≠ some ProfileCategory.mission :=
  admission_does_not_trigger_mission "How much is admission?"
    (by decide) (by decide) (by decide)

/-! ### Lemmas on the citation dedupe -/

theorem findVal_mem {m : List (String × SourceOut)} {k : String} {v : SourceOut}
    (h : findVal m k = some v) : (k, v) ∈ m := by
  induction m with
  | nil => cases h
  | cons p rest ih =>
    obtain ⟨k', v'⟩ := p
    unfold findVal at h
    by_cases hk : k' = k
    · rw [if_pos hk] at h
      cases h
      exact hk ▸ List.mem_cons_self _ _
    · rw [if_neg hk] at h
      exact List.mem_cons_of_mem _ (ih h)

theorem mem_setVal_self {m : List (String × SourceOut)} (k : String) (v : SourceOut) :
    (k, v) ∈ setVal m k v := by
  induction m with
  | nil => exact List.mem_cons_self _ _
  | cons p rest ih =>
    obtain ⟨k', v'⟩ := p
    unfold setVal
    by_cases hk : k' = k
    · rw [if_pos hk]
      exact List.mem_cons_self _ _
    · rw [if_neg hk]
      exact List.mem_cons_of_mem _ ih

theorem mem_setVal {m : List (String × SourceOut)} {k : String} {v : SourceOut}
    {p : String × SourceOut} (h : p ∈ setVal m k v) : p = (k, v) ∨ p ∈ m := by
  induction m with
  | nil => simpa [setVal] using h
  | cons q rest ih =>
    obtain ⟨k', v'⟩ := q
    unfold setVal at h
    by_cases hk : k' = k
    · rw [if_pos hk] at h
      rcases List.mem_cons.mp h with h1 | h1
      · exact Or.inl h1
      · exact Or.inr (List.mem_cons_of_mem _ h1)
    · rw [if_neg hk] at h
      rcases List.mem_cons.mp h with h1 | h1
      · exact Or.inr (h1 ▸ List.mem_cons_self _ _)
      · rcases ih h1 with h2 | h2
        · exact Or.inl h2
        · exact Or.inr (List.mem_cons_of_mem _ h2)

theorem dom_setVal {m : List (String × SourceOut)} {k : String} {v : SourceOut}
    (hrep : ∀ x, findVal m k = some x → x.similarity ≤ v.similarity) :
    ∀ p ∈ m, ∃ p' ∈ setVal m k v, p.2.similarity ≤ p'.2.similarity := by
  induction m with
  | nil => intro p hp; cases hp
  | cons q rest ih =>
    obtain ⟨k', v'⟩ := q
    intro p hp
    unfold setVal
    by_cases hk : k' = k
    · rw [if_pos hk]
      rcases List.mem_cons.mp hp with h1 | h1
      · refine ⟨(k, v), List.mem_cons_self _ _, ?_⟩
        have : findVal ((k', v') :: rest) k = some v' := by
          unfold findVal
          rw [if_pos hk]
        have hv' := hrep v' this
        rw [h1]
        exact hv'
      · exact ⟨p, List.mem_cons_of_mem _ h1, le_refl _⟩
    · rw [if_neg hk]
      rcases List.mem_cons.mp hp with h1 | h1
      · exact ⟨p, h1 ▸ List.mem_cons_self _ _, le_refl _⟩
      · have hrep' : ∀ x, findVal rest k = some x → x.similarity ≤ v.similarity := by
          intro x hx
          apply hrep
          unfold findVal
          rw [if_neg hk]
          exact hx
        obtain ⟨p', hp', hle⟩ := ih hrep' p h1
        exact ⟨p', List.mem_cons_of_mem _ hp', hle⟩

theorem dom_dedupeStep (m : List (String × SourceOut)) (s : SourceOut) :
    ∀ p ∈ m, ∃ p' ∈ dedupeStep m s, p.2.similarity ≤ p'.2.similarity := by
  intro p hp
  simp only [dedupeStep]
  cases hf : findVal m (dedupeKey s) with
  | none =>
    dsimp only
    refine dom_setVal ?_ p hp
    intro x hx
    rw [hf] at hx
    cases hx
  | some ex =>
    dsimp only
    by_cases hlt : ex.similarity < s.similarity
    · rw [if_pos hlt]
      refine dom_setVal ?_ p hp
      intro x hx
      rw [hf] at hx
      cases hx
      exact le_of_lt hlt
    · rw [if_neg hlt]
      exact ⟨p, hp, le_refl _⟩

theorem cover_dedupeStep (m : List (String × SourceOut)) (s : SourceOut) :
    ∃ p' ∈ dedupeStep m s, s.similarity ≤ p'.2.similarity := by
  simp only [dedupeStep]
  cases hf : findVal m (dedupeKey s) with
  | none =>
    dsimp only
    exact ⟨(dedupeKey s, s), mem_setVal_self _ _, le_refl _⟩
  | some ex =>
    dsimp only
    by_cases hlt : ex.similarity < s.similarity
    · rw [if_pos hlt]
      exact ⟨(dedupeKey s, s), mem_setVal_self _ _, le_refl _⟩
    · rw [if_neg hlt]
      exact ⟨(dedupeKey s, ex), findVal_mem hf, le_of_not_lt hlt⟩

theorem prov_dedupeStep {m : List (String × SourceOut)} {s : SourceOut}
    {p : String × SourceOut} (h : p ∈ dedupeStep m s) : p.2 = s ∨ p ∈ m := by
  simp only [dedupeStep] at h
  cases hf : findVal m (dedupeKey s) with
  | none =>
    rw [hf] at h
    dsimp only at h
    rcases mem_setVal h with h1 | h1
    · exact Or.inl (by rw [h1])
    · exact Or.inr h1
  | some ex =>
    rw [hf] at h
    dsimp only at h
    by_cases hlt : ex.similarity < s.similarity
    · rw [if_pos hlt] at h
      rcases mem_setVal h with h1 | h1
      · exact Or.inl (by rw [h1])
      · exact Or.inr h1
    · rw [if_neg hlt] at h
      exact Or.inr h

theorem foldl_dedupe_dom (l : List SourceOut) :
    ∀ (m : List (String × SourceOut)) (p : String × SourceOut), p ∈ m →
      ∃ p' ∈ List.foldl dedupeStep m l, p.2.similarity ≤ p'.2.similarity := by
  induction l with
  | nil => intro m p hp; exact ⟨p, hp, le_refl _⟩
  | cons s rest ih =>
    intro m p hp
    obtain ⟨p₁, hp₁, h1⟩ := dom_dedupeStep m s p hp
    obtain ⟨p', hp', h2⟩ := ih (dedupeStep m s) p₁ hp₁
    exact ⟨p', hp', le_trans h1 h2⟩

theorem foldl_dedupe_cover (l : List SourceOut) :
    ∀ (m : List (String × SourceOut)) (s : SourceOut), s ∈ l →
      ∃ p' ∈ List.foldl dedupeStep m l, s.similarity ≤ p'.2.similarity := by
  induction l with
  | nil => intro m s hs; cases hs
  | cons t rest ih =>
    intro m s hs
    rcases List.mem_cons.mp hs with h1 | h1
    · obtain ⟨p₁, hp₁, hc⟩ := cover_dedupeStep m t
      obtain ⟨p', hp', h2⟩ := foldl_dedupe_dom rest (dedupeStep m t) p₁ hp₁
      exact ⟨p', hp', le_trans (h1 ▸ hc) h2⟩
    · exact ih (dedupeStep m t) s h1

theorem foldl_dedupe_prov (l : List SourceOut) :
    ∀ (m : List (String × SourceOut)) (p : String × SourceOut),
      p ∈ List.foldl dedupeStep m l → p.2 ∈ m.map Prod.snd ∨ p.2 ∈ l := by
  induction l with
  | nil =>
    intro m p hp
    exact Or.inl (List.mem_map_of_mem _ hp)
  | cons s rest ih =>
    intro m p hp
    rcases ih (dedupeStep m s) p hp with h1 | h1
    · rw [List.mem_map] at h1
      obtain ⟨q, hq, hq2⟩ := h1
      rcases prov_dedupeStep hq with h2 | h2
      · exact Or.inr (by rw [← hq2, h2]; exact List.mem_cons_self _ _)
      · exact Or.inl (hq2 ▸ List.mem_map_of_mem _ h2)
    · exact Or.inr (List.mem_cons_of_mem _ h1)

theorem mem_insertBySimDesc {x s : SourceOut} {l : List SourceOut} :
    x ∈ insertBySimDesc s l ↔ x = s ∨ x ∈ l := by
  induction l with
  | nil => simp [insertBySimDesc]
  | cons t ts ih =>
    simp only [insertBySimDesc]
    split
    · simp [List.mem_cons]
    · simp [List.mem_cons, ih, or_left_comm]

theorem mem_sortBySimDesc {x : SourceOut} {l : List SourceOut} :
    x ∈ sortBySimDesc l ↔ x ∈ l := by
  induction l with
  | nil => simp [sortBySimDesc]
  | cons s ss ih => simp [sortBySimDesc, mem_insertBySimDesc, ih]

theorem pairwise_insertBySimDesc {s : SourceOut} {l : List SourceOut}
    (h : l.Pairwise fun a b => b.similarity ≤ a.similarity) :
    (insertBySimDesc s l).Pairwise fun a b => b.similarity ≤ a.similarity := by
  induction l with
  | nil => simp [insertBySimDesc]
  | cons t ts ih =>
    rw [List.pairwise_cons] at h
    obtain ⟨ht, hts⟩ := h
    unfold insertBySimDesc
    by_cases hc : t.similarity ≤ s.similarity
    · rw [if_pos hc]
      rw [List.pairwise_cons]
      constructor
      · intro y hy
        rcases List.mem_cons.mp hy with h1 | h1
        · exact h1 ▸ hc
        · exact le_trans (ht y h1) hc
      · rw [List.pairwise_cons]
        exact ⟨ht, hts⟩
    · rw [if_neg hc]
      rw [List.pairwise_cons]
      constructor
      · intro y hy
        rcases mem_insertBySimDesc.mp hy with h1 | h1
        · exact h1 ▸ le_of_lt (lt_of_not_le hc)
        · exact ht y h1
      · exact ih hts

theorem pairwise_sortBySimDesc (l : List SourceOut) :
    (sortBySimDesc l).Pairwise fun a b => b.similarity ≤ a.similarity := by
  induction l with
  | nil => simp [sortBySimDesc]
  | cons s ss ih => exact pairwise_insertBySimDesc ih

/-! ### C10: presentation-layer citation dedupe -/

/-- C10. The presentation-layer dedupe returns at most one citation; any
returned citation is one of the input sources and carries the maximum
similarity among all of them (the per-URL groups keep their best entry, the
representatives are sorted descending, and only the top survives); and two
matches sharing a URL with similarities 0.6 and 0.8 collapse to the single
0.8 citation. -/
theorem citation_dedupe_top_one :
    (∀ sources : List SourceOut, (dedupeTopOne sources).length ≤ 1)
    ∧ (∀ (sources : List SourceOut) (c : SourceOut), c ∈ dedupeTopOne sources →
        c ∈ sources ∧ ∀ s ∈ sources, s.similarity ≤ c.similarity)
    ∧ dedupeTopOne [⟨"a", some "http://x", mkRat 6 10⟩, ⟨"b", some "http://x", mkRat 8 10⟩]
        = [⟨"b", some "http://x", mkRat 8 10⟩] := by
  refine ⟨fun sources => List.length_take_le _ _, ?_, by decide⟩
  intro sources c hc
  unfold dedupeTopOne at hc
  have hhead : sortBySimDesc ((sources.foldl dedupeStep []).map Prod.snd)
      = c :: (sortBySimDesc ((sources.foldl dedupeStep []).map Prod.snd)).tail := by
    cases hs : sortBySimDesc ((sources.foldl dedupeStep []).map Prod.snd) with
    | nil => rw [hs] at hc; cases hc
    | cons a t =>
      rw [hs] at hc
      simp only [List.take_succ_cons, List.take_zero] at hc
      rcases List.mem_singleton.mp hc with rfl
      rfl
  constructor
  · have hcmem : c ∈ (sources.foldl dedupeStep []).map Prod.snd := by
      rw [← mem_sortBySimDesc (l := (sources.foldl dedupeStep []).map Prod.snd)]
      rw [hhead]
      exact List.mem_cons_self _ _
    rw [List.mem_map] at hcmem
    obtain ⟨p, hp, hp2⟩ := hcmem
    rcases foldl_dedupe_prov sources [] p hp with h1 | h1
    · cases h1
    · exact hp2 ▸ h1
  · intro s hs
    obtain ⟨p', hp', hcov⟩ := foldl_dedupe_cover sources [] s hs
    have hv : p'.2 ∈ sortBySimDesc ((sources.foldl dedupeStep []).map Prod.snd) :=
      mem_sortBySimDesc.mpr (List.mem_map_of_mem _ hp')
    rw [hhead] at hv
    rcases List.mem_cons.mp hv with h1 | h1
    · exact h1 ▸ hcov
    · have hpw := pairwise_sortBySimDesc ((sources.foldl dedupeStep []).map Prod.snd)
      rw [hhead, List.pairwise_cons] at hpw
      exact le_trans hcov (hpw.1 _ h1)

/-- Witness for C10 at the shared-URL 0.6/0.8 example. -/
theorem citation_dedupe_top_one_witness :
    (⟨"b", some "http://x", mkRat 8 10⟩ : SourceOut)
        ∈ [(⟨"a", some "http://x", mkRat 6 10⟩ : SourceOut), ⟨"b", some "http://x", mkRat 8 10⟩]
    ∧ ∀ s ∈ [(⟨"a", some "http://x", mkRat 6 10⟩ : SourceOut), ⟨"b", some "http://x", mkRat 8 10⟩],
        s.similarity ≤ (⟨"b", some "http://x", mkRat 8 10⟩ : SourceOut).similarity :=
  citation_dedupe_top_one.2.1
    [⟨"a", some "http://x", mkRat 6 10⟩, ⟨"b", some "http://x", mkRat 8 10⟩]
    ⟨"b", some "http://x", mkRat 8 10⟩ (by decide)

end RagChat
